import Mathlib

/-!
Verification development for the jcat CLI (jcat.py): a shallow embedding of
the activity-feed rendering engine (truncate_output, print_activity,
handle_session_commit, and the polling loop of handle_session_follow),
together with theorems settling the specified properties.

Python strings are modelled as lists of characters (Str); each call of the
builtin print is modelled as one emitted Str (which may itself contain
newline characters, exactly as the corresponding Python f-string does).
-/

set_option autoImplicit false

namespace Jcat

/-- A Python string, modelled as a list of characters. -/
abbrev Str := List Char

/-- Model of the Python expression s.split(sep) for a one-character
separator sep: maximal (possibly empty) runs between separator
occurrences; the empty string splits into a single empty part. -/
def splitOnChar (sep : Char) : Str → List Str
  | [] => [[]]
  | c :: cs =>
    if c = sep then [] :: splitOnChar sep cs
    else
      match splitOnChar sep cs with
      | [] => [[c]]
      | p :: ps => (c :: p) :: ps

/-- Model of the Python expression sep.join(parts). -/
def pyJoin (sep : Str) : List Str → Str
  | [] => []
  | [p] => p
  | p :: q :: ps => p ++ sep ++ pyJoin sep (q :: ps)

/-- Model of the Python slice lines[-tail:] (for tail = 0 the slice is the
whole list; otherwise it is the last tail elements). -/
def pyTailSlice {α : Type} (l : List α) (tail : Nat) : List α :=
  if tail = 0 then l else l.drop (l.length - tail)

/-- Decimal rendering of a natural number, as a Python f-string renders an int. -/
def natRepr (n : Nat) : Str := (Nat.repr n).data

/-- The interior (no surrounding newlines) of the truncation message built at
line 205 of jcat.py, for given head and tail parameters. -/
def truncMarker (head tail : Nat) : Str :=
  ("... (output truncated, showing first ".data) ++ natRepr head
    ++ (" and last ".data) ++ natRepr tail ++ (" lines) ...".data)

/-- Embedding of truncate_output (jcat.py lines 187-207).  The Python
signature is truncate_output(output, max_lines=25, head=10, tail=10);
defaults are supplied at call sites here.  The Python local variable
lines = output.split of the newline character is written out in full, and
the truncated_message built at line 205 is a newline, the marker text, and
a newline. -/
def truncate_output (output : Str) (max_lines head tail : Nat) : Str :=
  if (splitOnChar '\n' output).length > max_lines then
    pyJoin ['\n'] ((splitOnChar '\n' output).take head)
      ++ (['\n'] ++ truncMarker head tail ++ ['\n'])
      ++ pyJoin ['\n'] (pyTailSlice (splitOnChar '\n' output) tail)
  else output

theorem splitOnChar_ne_nil (sep : Char) (s : Str) : splitOnChar sep s ≠ [] := by
  cases s with
  | nil => simp [splitOnChar]
  | cons c cs =>
    simp only [splitOnChar]
    split
    · simp
    · cases splitOnChar sep cs <;> simp

theorem not_mem_of_mem_splitOnChar (sep : Char) (s : Str) :
    ∀ p ∈ splitOnChar sep s, sep ∉ p := by
  induction s with
  | nil =>
    intro p hp
    simp [splitOnChar] at hp
    simp [hp]
  | cons c cs ih =>
    intro p hp
    simp only [splitOnChar] at hp
    by_cases hc : c = sep
    · simp [hc] at hp
      rcases hp with hp | hp
      · simp [hp]
      · exact ih p hp
    · simp [hc] at hp
      cases h : splitOnChar sep cs with
      | nil => exact absurd h (splitOnChar_ne_nil sep cs)
      | cons q qs =>
        rw [h] at hp
        rcases List.mem_cons.mp hp with hp | hp
        · subst hp
          intro hmem
          rcases List.mem_cons.mp hmem with h1 | h1
          · exact hc h1.symm
          · exact ih q (h ▸ List.mem_cons_self q qs) h1
        · exact ih p (h ▸ List.mem_cons_of_mem q hp)

theorem splitOnChar_of_not_mem (sep : Char) (p : Str) (hp : sep ∉ p) :
    splitOnChar sep p = [p] := by
  induction p with
  | nil => simp [splitOnChar]
  | cons c cs ih =>
    simp only [List.mem_cons, not_or] at hp
    have h1 : ¬ (c = sep) := fun h => hp.1 h.symm
    simp only [splitOnChar, h1, if_false]
    rw [ih hp.2]

theorem splitOnChar_append_sep (sep : Char) (p t : Str) (hp : sep ∉ p) :
    splitOnChar sep (p ++ sep :: t) = p :: splitOnChar sep t := by
  induction p with
  | nil => simp [splitOnChar]
  | cons c cs ih =>
    simp only [List.mem_cons, not_or] at hp
    have h1 : ¬ (c = sep) := fun h => hp.1 h.symm
    simp only [List.cons_append, splitOnChar, h1, if_false, List.append_eq]
    rw [ih hp.2]

theorem splitOnChar_pyJoin (sep : Char) (parts : List Str)
    (hne : parts ≠ []) (hfree : ∀ p ∈ parts, sep ∉ p) :
    splitOnChar sep (pyJoin [sep] parts) = parts := by
  induction parts with
  | nil => exact absurd rfl hne
  | cons p ps ih =>
    cases ps with
    | nil =>
      simp only [pyJoin]
      exact splitOnChar_of_not_mem sep p (hfree p (List.mem_cons_self p []))
    | cons q qs =>
      simp only [pyJoin]
      have hp : sep ∉ p := hfree p (List.mem_cons_self p (q :: qs))
      have : p ++ [sep] ++ pyJoin [sep] (q :: qs)
          = p ++ sep :: pyJoin [sep] (q :: qs) := by simp
      rw [this, splitOnChar_append_sep sep p _ hp]
      rw [ih (by simp) (fun r hr => hfree r (List.mem_cons_of_mem p hr))]

theorem pyJoin_append (sep : Str) (A B : List Str) (hA : A ≠ []) (hB : B ≠ []) :
    pyJoin sep (A ++ B) = pyJoin sep A ++ sep ++ pyJoin sep B := by
  induction A with
  | nil => exact absurd rfl hA
  | cons a as ih =>
    cases as with
    | nil =>
      cases B with
      | nil => exact absurd rfl hB
      | cons b bs => simp [pyJoin]
    | cons a2 as2 =>
      have h2 : (a2 :: as2 : List Str) ≠ [] := by simp
      have ih2 := ih h2
      simp only [List.cons_append] at ih2
      simp only [List.cons_append, pyJoin, List.append_eq]
      rw [ih2]
      simp [List.append_assoc]

theorem truncate_output_le (s : Str) (max_lines head tail : Nat)
    (h : (splitOnChar '\n' s).length ≤ max_lines) :
    truncate_output s max_lines head tail = s := by
  unfold truncate_output
  rw [if_neg (by omega)]

theorem truncate_output_split (s : Str) (h : 25 < (splitOnChar '\n' s).length) :
    splitOnChar '\n' (truncate_output s 25 10 10)
      = (splitOnChar '\n' s).take 10
        ++ truncMarker 10 10 :: (splitOnChar '\n' s).drop ((splitOnChar '\n' s).length - 10) := by
  have hT : (splitOnChar '\n' s).take 10 ≠ [] := by
    have hlen : ((splitOnChar '\n' s).take 10).length = 10 := by
      rw [List.length_take]; omega
    intro hcon
    rw [hcon] at hlen
    simp at hlen
  have hD : (splitOnChar '\n' s).drop ((splitOnChar '\n' s).length - 10) ≠ [] := by
    have hlen : ((splitOnChar '\n' s).drop ((splitOnChar '\n' s).length - 10)).length = 10 := by
      rw [List.length_drop]; omega
    intro hcon
    rw [hcon] at hlen
    simp at hlen
  have hMarker : '\n' ∉ truncMarker 10 10 := by decide
  unfold truncate_output
  rw [if_pos h]
  have hslice : pyTailSlice (splitOnChar '\n' s) 10
      = (splitOnChar '\n' s).drop ((splitOnChar '\n' s).length - 10) := by
    simp [pyTailSlice]
  rw [hslice]
  have key : pyJoin ['\n'] ((splitOnChar '\n' s).take 10)
        ++ (['\n'] ++ truncMarker 10 10 ++ ['\n'])
        ++ pyJoin ['\n'] ((splitOnChar '\n' s).drop ((splitOnChar '\n' s).length - 10))
      = pyJoin ['\n'] ((splitOnChar '\n' s).take 10
          ++ truncMarker 10 10 :: (splitOnChar '\n' s).drop ((splitOnChar '\n' s).length - 10)) := by
    rw [show (truncMarker 10 10 :: (splitOnChar '\n' s).drop ((splitOnChar '\n' s).length - 10))
        = [truncMarker 10 10] ++ (splitOnChar '\n' s).drop ((splitOnChar '\n' s).length - 10)
      from rfl]
    rw [pyJoin_append ['\n'] _ _ hT (by simp)]
    rw [pyJoin_append ['\n'] [truncMarker 10 10] _ (by simp) hD]
    simp [pyJoin, List.append_assoc]
  rw [key]
  apply splitOnChar_pyJoin
  · simp
  · intro p hp
    rcases List.mem_append.mp hp with hp | hp
    · exact not_mem_of_mem_splitOnChar '\n' s p (List.take_subset _ _ hp)
    · rcases List.mem_cons.mp hp with hp | hp
      · rw [hp]; exact hMarker
      · exact not_mem_of_mem_splitOnChar '\n' s p (List.drop_subset _ _ hp)

theorem head?_take {α : Type} (l : List α) (n : Nat) (hn : n ≠ 0) :
    (l.take n).head? = l.head? := by
  cases l with
  | nil => simp
  | cons a as =>
    cases n with
    | zero => exact absurd rfl hn
    | succ m => simp

theorem getLast?_drop_eq {α : Type} (l : List α) (n : Nat) (h : n < l.length) :
    (l.drop n).getLast? = l.getLast? := by
  induction l generalizing n with
  | nil => simp at h
  | cons a as ih =>
    cases n with
    | zero => simp
    | succ m =>
      simp only [List.length_cons, Nat.succ_lt_succ_iff] at h
      rw [List.drop_succ_cons, ih m h]
      cases as with
      | nil => simp at h
      | cons b bs => simp [List.getLast?_cons_cons]

/-- Model of the Python test needle in haystack for strings: startsWith
checks a prefix, containsSub checks occurrence anywhere. -/
def startsWith : Str → Str → Bool
  | [], _ => true
  | _ :: _, [] => false
  | a :: as, b :: bs => (a == b) && startsWith as bs

/-- Occurrence of needle anywhere in the haystack. -/
def containsSub (needle : Str) : Str → Bool
  | [] => needle.isEmpty
  | c :: cs => startsWith needle (c :: cs) || containsSub needle cs

/-- A 26-line input built like the edge-case test in test_jcat.py:
the lines Line 0 through Line 25 joined by newlines. -/
def sample26 : Str :=
  pyJoin ['\n'] ((List.range 26).map (fun i => ("Line ".data) ++ natRepr i))

/-- The three-line input of the line-length test in test_jcat.py: a short
line, a 200-character line, and a short line. -/
def longLineInput : Str :=
  ("Line 1\n".data) ++ List.replicate 200 'a' ++ ("\nLine 3".data)

/-- C7: truncate_output with max_lines 25, head 10, tail 10 returns the
input unchanged when it has at most 25 lines; above 25 lines the output is
the first 10 lines, one marker line, and the last 10 lines, hence exactly
21 output lines, with the first and last lines preserved and every output
line drawn from the kept head, the marker, or the kept tail. -/
theorem claim_C7_truncation (s : Str) :
    ((splitOnChar '\n' s).length ≤ 25 → truncate_output s 25 10 10 = s)
    ∧ (25 < (splitOnChar '\n' s).length →
        splitOnChar '\n' (truncate_output s 25 10 10)
          = (splitOnChar '\n' s).take 10
            ++ truncMarker 10 10
              :: (splitOnChar '\n' s).drop ((splitOnChar '\n' s).length - 10)
        ∧ (splitOnChar '\n' (truncate_output s 25 10 10)).length = 21
        ∧ (splitOnChar '\n' (truncate_output s 25 10 10)).head?
            = (splitOnChar '\n' s).head?
        ∧ (splitOnChar '\n' (truncate_output s 25 10 10)).getLast?
            = (splitOnChar '\n' s).getLast?
        ∧ ∀ p ∈ splitOnChar '\n' (truncate_output s 25 10 10),
            p ∈ (splitOnChar '\n' s).take 10 ∨ p = truncMarker 10 10
              ∨ p ∈ (splitOnChar '\n' s).drop ((splitOnChar '\n' s).length - 10)) := by
  constructor
  · exact truncate_output_le s 25 10 10
  · intro h
    have hsplit := truncate_output_split s h
    refine ⟨hsplit, ?_, ?_, ?_, ?_⟩
    · rw [hsplit]
      simp only [List.length_append, List.length_cons, List.length_take, List.length_drop]
      omega
    · rw [hsplit]
      cases hs : splitOnChar '\n' s with
      | nil => exact absurd hs (splitOnChar_ne_nil '\n' s)
      | cons l0 rest => simp
    · rw [hsplit]
      have hD : (splitOnChar '\n' s).drop ((splitOnChar '\n' s).length - 10) ≠ [] := by
        have hlen : ((splitOnChar '\n' s).drop ((splitOnChar '\n' s).length - 10)).length
            = 10 := by
          rw [List.length_drop]; omega
        intro hcon
        rw [hcon] at hlen
        simp at hlen
      rw [List.getLast?_append_of_ne_nil _ (by simp)]
      rw [show (truncMarker 10 10
            :: (splitOnChar '\n' s).drop ((splitOnChar '\n' s).length - 10))
          = [truncMarker 10 10]
            ++ (splitOnChar '\n' s).drop ((splitOnChar '\n' s).length - 10) from rfl]
      rw [List.getLast?_append_of_ne_nil _ hD]
      exact getLast?_drop_eq _ _ (by omega)
    · intro p hp
      rw [hsplit] at hp
      rcases List.mem_append.mp hp with hp | hp
      · exact Or.inl hp
      · rcases List.mem_cons.mp hp with hp | hp
        · exact Or.inr (Or.inl hp)
        · exact Or.inr (Or.inr hp)

/-- Witness for C7 at the concrete 26-line sample: the hypothesis holds and
the output has exactly 21 lines. -/
theorem claim_C7_truncation_witness :
    25 < (splitOnChar '\n' sample26).length
    ∧ (splitOnChar '\n' (truncate_output sample26 25 10 10)).length = 21 :=
  ⟨by decide, (((claim_C7_truncation sample26).2 (by decide)).2).1⟩

set_option maxRecDepth 100000 in
/-- C5: the claim states the marker line reads omitting K lines; the code
instead emits showing first 10 and last 10 lines.  At the 26-line sample,
output line index 10 is the showing-marker and no omitting-marker occurs. -/
theorem claim_C5_code_behavior :
    (splitOnChar '\n' (truncate_output sample26 25 10 10)).getD 10 []
      = ("... (output truncated, showing first 10 and last 10 lines) ...".data)
    ∧ ("... (output truncated, omitting 6 lines) ...".data)
        ∉ splitOnChar '\n' (truncate_output sample26 25 10 10) := by
  constructor
  · decide
  · decide

set_option maxRecDepth 100000 in
/-- C6: the code has no line-length bound at all; the three-line input with
a 200-character middle line passes through truncate_output unchanged, and
the LINE TRUNCATED marker never appears. -/
theorem claim_C6_code_behavior :
    truncate_output longLineInput 25 10 10 = longLineInput
    ∧ containsSub ("...[LINE TRUNCATED]...".data)
        (truncate_output longLineInput 25 10 10) = false := by
  constructor
  · decide
  · decide

/-- Model of the Python method upper for ASCII text. -/
def pyUpper (s : Str) : Str := s.map Char.toUpper

/-- Model of the Python method strip: drop leading and trailing whitespace. -/
def pyStrip (s : Str) : Str :=
  ((s.dropWhile Char.isWhitespace).reverse.dropWhile Char.isWhitespace).reverse

/-- Model of the Python expression s.split(sep)[0] for a nonempty multi
character separator: the prefix before the first occurrence of sep, or the
whole string when sep does not occur. -/
def splitHead (sep : Str) : Str → Str
  | [] => []
  | c :: cs => if startsWith sep (c :: cs) then [] else c :: splitHead sep cs

/-- The message sub-object of an activity (key message). -/
structure Message where
  content : Option Str
deriving DecidableEq

/-- One step of a generated plan. -/
structure PlanStep where
  title : Option Str
deriving DecidableEq

/-- The plan carried by a planGenerated activity.  The state field is
carried by the payload (the tests exercise it) but jcat.py never reads it. -/
structure Plan where
  reasoning : Option Str
  steps : Option (List PlanStep)
  state : Option Str
deriving DecidableEq

/-- The planGenerated sub-object. -/
structure PlanGenerated where
  plan : Option Plan
deriving DecidableEq

/-- The progressUpdated sub-object. -/
structure ProgressUpdated where
  title : Option Str
  description : Option Str
deriving DecidableEq

/-- The bashOutput sub-object of an artifact. -/
structure BashOutput where
  command : Option Str
  output : Option Str
deriving DecidableEq

/-- One element of the top-level artifacts array. -/
structure Artifact where
  bashOutput : Option BashOutput
deriving DecidableEq

/-- The commitInfo sub-object of a sessionCompleted activity. -/
structure CommitInfo where
  suggestedCommitMessage : Option Str
deriving DecidableEq

/-- The sessionCompleted sub-object. -/
structure SessionCompleted where
  commitInfo : Option CommitInfo
deriving DecidableEq

/-- A raw activity payload as print_activity reads it: each field is
present (some) or absent (none), mirroring Python dict key presence.  The
planApproved value itself is never inspected by the code, only its
presence. -/
structure Activity where
  name : Option Str
  originator : Option Str
  createTime : Option Str
  message : Option Message
  planGenerated : Option PlanGenerated
  progressUpdated : Option ProgressUpdated
  artifacts : Option (List Artifact)
  planApproved : Option Unit
  sessionCompleted : Option SessionCompleted
deriving DecidableEq

/-- A remote API call made through the client. -/
inductive RemoteCall where
  | commit (sessionId : Str)
deriving DecidableEq

/-- Observable outcome of one print_activity call: the payloads passed to
print in order (each possibly containing newlines, as the f-strings do),
the confirmation prompts shown, the remote calls performed, and whether a
KeyError escaped (the only raising path, the activity name lookup at line
278). On err = true the fields hold what happened before the raise. -/
structure Render where
  outLines : List Str
  prompts : List Str
  calls : List RemoteCall
  err : Bool
deriving DecidableEq

/-- Escape of one character in a JSON string, as json.dumps performs it for
the characters that can occur here. -/
def jescapeChar (c : Char) : Str :=
  if c = '"' then ['\\', '"']
  else if c = '\\' then ['\\', '\\']
  else if c = '\n' then ['\\', 'n']
  else if c = '\t' then ['\\', 't']
  else if c = '\r' then ['\\', 'r']
  else [c]

/-- A JSON string literal with quotes, as json.dumps renders one. -/
def jstr (s : Str) : Str := '"' :: (s.flatMap jescapeChar) ++ ['"']

/-- A run of spaces. -/
def spaces (n : Nat) : Str := List.replicate n ' '

/-- A JSON object at indent ind with already-rendered values, following
json.dumps with indent 2: empty renders as brace pair, otherwise one
key-value entry per line indented two deeper than ind. -/
def jobj (ind : Nat) (kvs : List (Str × Str)) : Str :=
  match kvs with
  | [] => ("\x7b\x7d".data)
  | _ =>
    ("\x7b\n".data)
      ++ pyJoin (",\n".data)
          (kvs.map (fun kv => spaces (ind + 2) ++ jstr kv.1 ++ (": ".data) ++ kv.2))
      ++ ['\n'] ++ spaces ind ++ ("\x7d".data)

/-- A JSON array at indent ind with already-rendered elements, following
json.dumps with indent 2. -/
def jarr (ind : Nat) (vs : List Str) : Str :=
  match vs with
  | [] => ("[]".data)
  | _ =>
    ("[\n".data)
      ++ pyJoin (",\n".data) (vs.map (fun v => spaces (ind + 2) ++ v))
      ++ ['\n'] ++ spaces ind ++ ("]".data)

/-- Entry list for an optional string field. -/
def optEntry (key : Str) (v : Option Str) : List (Str × Str) :=
  match v with
  | some s => [(key, jstr s)]
  | none => []

/-- Serialization of a bashOutput object at indent ind. -/
def dumpBashOutput (ind : Nat) (bo : BashOutput) : Str :=
  jobj ind (optEntry ("command".data) bo.command ++ optEntry ("output".data) bo.output)

/-- Serialization of one artifact at indent ind. -/
def dumpArtifact (ind : Nat) (art : Artifact) : Str :=
  jobj ind
    (match art.bashOutput with
     | some bo => [(("bashOutput".data), dumpBashOutput (ind + 2) bo)]
     | none => [])

/-- Model of json.dumps(activity, indent=2) as used by the fallback branch
of print_activity (line 288).  In that branch the five kind fields are
necessarily absent (each would have selected an earlier branch), so only
name, createTime, originator and artifacts can occur; they are emitted in
that fixed order (the insertion order of the original server payload is
not recoverable from this typed model). The empty activity renders as the
empty object. -/
def dumpJson (a : Activity) : Str :=
  jobj 0
    (optEntry ("name".data) a.name
      ++ optEntry ("createTime".data) a.createTime
      ++ optEntry ("originator".data) a.originator
      ++ (match a.artifacts with
          | some arts => [(("artifacts".data), jarr 2 (arts.map (dumpArtifact 4)))]
          | none => []))

/-- The separator printed at the start of every activity block (line 219). -/
def sepLine : Str := List.replicate 20 '-'

/-- Time-of-day extraction from createTime (line 223): if a T occurs, the
text between the T and the first dot of the remainder, else the raw
string. -/
def timeOfDay (create_time : Str) : Str :=
  if 'T' ∈ create_time then
    ((splitOnChar '.' ((splitOnChar 'T' create_time).getD 1 [])).headD [])
  else create_time

/-- The header line printed at line 225, from the originator (default
UNKNOWN) and createTime (default twelve dashes) of the activity. -/
def headerLine (a : Activity) : Str :=
  ('[' :: timeOfDay (a.createTime.getD ("------------".data)))
    ++ (" - ".data) ++ pyUpper (a.originator.getD ("UNKNOWN".data)) ++ [']']

/-- The confirmation prompt text shown by print_activity (line 281). -/
def commitPrompt : Str :=
  ("Do you want to create this commit and open a Pull Request?".data)

/-- Embedding of handle_session_commit (jcat.py lines 291-305): prints a
status line, posts the commit action for the session, and prints a success
or failure message (the except branch; the network outcome is the postOk
input, and the text of the caught exception is abstracted away).  The post
is attempted in both cases, so the remote call is always recorded. -/
def handle_session_commit (session_id : Str) (postOk : Bool) : List Str × List RemoteCall :=
  let head := [("Creating commit for session: ".data) ++ session_id ++ ("...".data)]
  if postOk then
    (head ++ [("Commit and Pull Request created successfully!".data),
              ("You can view the new Pull Request on your repository.".data)],
     [RemoteCall.commit session_id])
  else
    (head ++ [("Failed to create commit: ".data)], [RemoteCall.commit session_id])

/-- The rendered lines for one artifact inside the progressUpdated branch
(lines 248-257): a command block, and an output block when the stripped
output is nonempty, the output passed through truncate_output with the
default parameters. -/
def artifactLines (art : Artifact) : List Str :=
  match art.bashOutput with
  | none => []
  | some bo =>
    let command := pyStrip (bo.command.getD ("No command executed.".data))
    let output := pyStrip (bo.output.getD ("No output.".data))
    let cmdLine := ("    - Ran Bash Command:\n      ```\n      ".data)
        ++ command ++ ("\n      ```".data)
    if output = [] then [cmdLine]
    else
      [cmdLine,
       ("    - Output:\n      ```\n      ".data)
         ++ truncate_output output 25 10 10 ++ ("\n      ```".data)]

/-- Embedding of print_activity (jcat.py lines 209-288).  client is the
truthiness of the client argument (none defaults to false), userConfirms
is the answer the user gives to a confirmation prompt, and postOk is the
network outcome of a commit post.  The elif chain is mirrored by nested
matches in source order. -/
def print_activity (a : Activity) (client userConfirms postOk : Bool) : Render :=
  let hdr := [sepLine, headerLine a]
  match a.message with
  | some m =>
    ⟨hdr ++ [("  Message: ".data) ++ m.content.getD []], [], [], false⟩
  | none =>
    match a.planGenerated with
    | some pg =>
      let plan_data := pg.plan.getD ⟨none, none, none⟩
      let reasoning := plan_data.reasoning.getD ("No reasoning provided.".data)
      let stepLines := (plan_data.steps.getD []).enum.map
        (fun p => ("    ".data) ++ natRepr (p.1 + 1) ++ (". ".data)
          ++ p.2.title.getD ("No title".data))
      ⟨hdr ++ [("  Plan Generated: ".data) ++ reasoning] ++ stepLines, [], [], false⟩
    | none =>
      match a.progressUpdated with
      | some pu =>
        let title := pu.title.getD ("Progress Update".data)
        let description := pu.description.getD []
        let descLines :=
          if description = [] then []
          else (splitOnChar '\n' description).map (fun l => ("    ".data) ++ l)
        let artLines :=
          match a.artifacts with
          | some arts => arts.flatMap artifactLines
          | none => []
        ⟨hdr ++ [("  Progress: ".data) ++ title] ++ descLines ++ artLines, [], [], false⟩
      | none =>
        match a.planApproved with
        | some _ => ⟨hdr ++ [("  Plan Approved".data)], [], [], false⟩
        | none =>
          match a.sessionCompleted with
          | some sc =>
            let base := hdr ++ [("  Session Completed".data)]
            match sc.commitInfo with
            | some ci =>
              match ci.suggestedCommitMessage with
              | some commit_message =>
                let message_lines := splitOnChar '\n' commit_message
                let commit_title := message_lines.headD []
                let commit_description :=
                  pyStrip (pyJoin ['\n'] (message_lines.drop 1))
                let indented_description :=
                  pyJoin ("\n      ".data) (splitOnChar '\n' commit_description)
                let base2 := base
                  ++ [("\n  A commit has been prepared:".data),
                      ("    Title: ".data) ++ commit_title,
                      ("    Description:\n      ".data) ++ indented_description]
                match a.name with
                | none => ⟨base2, [], [], true⟩
                | some nm =>
                  let session_name := splitHead ("/activities/".data) nm
                  if client then
                    if userConfirms then
                      let hc := handle_session_commit session_name postOk
                      ⟨base2 ++ hc.1, [commitPrompt], hc.2, false⟩
                    else ⟨base2, [commitPrompt], [], false⟩
                  else ⟨base2, [], [], false⟩
              | none => ⟨base, [], [], false⟩
            | none => ⟨base, [], [], false⟩
          | none =>
            ⟨hdr ++ [("  [UNKNOWN ACTIVITY]\n".data) ++ dumpJson a], [], [], false⟩

/-- True when the activity carries sessionCompleted.commitInfo with the
suggestedCommitMessage key present: exactly the guard of line 264. -/
def hasCommitMessage (a : Activity) : Bool :=
  match a.sessionCompleted with
  | some sc =>
    match sc.commitInfo with
    | some ci => ci.suggestedCommitMessage.isSome
    | none => false
  | none => false

/-- The empty payload: every key absent. -/
def emptyActivity : Activity :=
  ⟨none, none, none, none, none, none, none, none, none⟩

/-- A sessionCompleted activity with a suggested commit message but no name
key. -/
def missingNameCommitAct : Activity :=
  { name := none, originator := none, createTime := none, message := none,
    planGenerated := none, progressUpdated := none, artifacts := none,
    planApproved := none,
    sessionCompleted := some ⟨some ⟨some ("fix".data)⟩⟩ }

/-- The planGenerated activity of the repo test
test_print_activity_prompts_for_plan_approval: a plan whose state is
NEEDS_APPROVAL with one step. -/
def planNeedsApprovalAct : Activity :=
  { name := some ("sessions/123/activities/abc".data), originator := none,
    createTime := none, message := none,
    planGenerated := some ⟨some ⟨some ("A plan that needs approval.".data),
      some [⟨some ("Do something".data)⟩], some ("NEEDS_APPROVAL".data)⟩⟩,
    progressUpdated := none, artifacts := none, planApproved := none,
    sessionCompleted := none }

/-- The sessionCompleted activity of the repo test
test_print_activity_prompts_for_commit: commit info with a two-paragraph
suggested message. -/
def completedCommitAct : Activity :=
  { name := some ("sessions/456/activities/def".data), originator := none,
    createTime := none, message := none, planGenerated := none,
    progressUpdated := none, artifacts := none, planApproved := none,
    sessionCompleted := some ⟨some ⟨some
      ("feat: Implement new feature\n\nThis is a great feature.".data)⟩⟩ }

/-- A sessionCompleted activity whose suggestedCommitMessage is present but
empty. -/
def emptyMsgCommitAct : Activity :=
  { name := some ("sessions/9/activities/1".data), originator := none,
    createTime := none, message := none, planGenerated := none,
    progressUpdated := none, artifacts := none, planApproved := none,
    sessionCompleted := some ⟨some ⟨some []⟩⟩ }

/-- A bare planApproved activity. -/
def planApprovedAct : Activity :=
  { name := none, originator := none, createTime := none, message := none,
    planGenerated := none, progressUpdated := none, artifacts := none,
    planApproved := some (), sessionCompleted := none }

/-- A sessionCompleted activity without commit info. -/
def completedNoInfoAct : Activity :=
  { name := none, originator := none, createTime := none, message := none,
    planGenerated := none, progressUpdated := none, artifacts := none,
    planApproved := none, sessionCompleted := some ⟨none⟩ }

/-- C1 counterexample: a sessionCompleted activity carrying a suggested
commit message but lacking the name key makes print_activity raise (the
KeyError of the name lookup at line 278), so the function is not total on
payloads lacking expected sub-fields. -/
theorem claim_C1_counterexample :
    (print_activity missingNameCommitAct false false false).err = true := rfl

/-- C1 amended: print_activity completes without raising for every payload
except a sessionCompleted one that has commitInfo.suggestedCommitMessage
while lacking name; the empty object falls through to the Unknown branch
and is rendered with the fixed UNKNOWN ACTIVITY title followed by the
pretty-printed dump of the payload (the empty JSON object). -/
theorem claim_C1_parser_totality (a : Activity) (c u p : Bool)
    (h : a.name = none → hasCommitMessage a = false) :
    (print_activity a c u p).err = false
    ∧ print_activity emptyActivity c u p
      = ⟨[sepLine, ("[------------ - UNKNOWN]".data),
          ("  [UNKNOWN ACTIVITY]\n\x7b\x7d".data)], [], [], false⟩ := by
  constructor
  · rcases a with ⟨nm, orig, ct, msg, pg, pu, arts, pa, sc⟩
    cases msg with
    | some m => rfl
    | none =>
      cases pg with
      | some x => rfl
      | none =>
        cases pu with
        | some x => rfl
        | none =>
          cases pa with
          | some x => rfl
          | none =>
            cases sc with
            | none => rfl
            | some sc1 =>
              rcases sc1 with ⟨ci⟩
              cases ci with
              | none => rfl
              | some ci1 =>
                rcases ci1 with ⟨cmsg⟩
                cases cmsg with
                | none => rfl
                | some cm =>
                  cases nm with
                  | some n =>
                    cases c with
                    | false => rfl
                    | true => cases u <;> rfl
                  | none =>
                    exfalso
                    have hc := h rfl
                    simp [hasCommitMessage] at hc
  · rfl

/-- Witness for C1 at the empty activity. -/
theorem claim_C1_witness :
    (emptyActivity.name = none → hasCommitMessage emptyActivity = false)
    ∧ (print_activity emptyActivity false false false).err = false :=
  ⟨by decide, (claim_C1_parser_totality emptyActivity false false false (by decide)).1⟩

/-- C3: the code never shows an approval prompt for a planGenerated
activity, even in state NEEDS_APPROVAL: at the repo test input, the render
is just the reasoning and the numbered step, with no prompt and no remote
call, contradicting the repo test which expects the approval prompt and a
call of handle_session_approve_plan (a function jcat.py does not define). -/
theorem claim_C3_no_approval_prompt :
    print_activity planNeedsApprovalAct true true true
      = ⟨[sepLine, ("[------------ - UNKNOWN]".data),
          ("  Plan Generated: A plan that needs approval.".data),
          ("    1. Do something".data)], [], [], false⟩
    ∧ ("This plan requires your approval. Do you want to approve it?".data)
        ∉ (print_activity planNeedsApprovalAct true true true).prompts := by
  constructor
  · rfl
  · intro hmem
    rw [show (print_activity planNeedsApprovalAct true true true).prompts
        = [] from rfl] at hmem
    exact List.not_mem_nil _ hmem

/-- C4: at the repo test input the code does prompt and does invoke the
commit action for the stripped session id, but the prompt text is the
longer Do-you-want wording, not the text the claim and the repo test give;
moreover an empty suggestedCommitMessage still triggers the prompt, so the
gating is key presence, not non-emptiness.  Declining the prompt performs
no remote call. -/
theorem claim_C4_code_behavior :
    (print_activity completedCommitAct true true true).prompts = [commitPrompt]
    ∧ commitPrompt ≠ ("Create this commit and open a Pull Request?".data)
    ∧ (print_activity completedCommitAct true true true).calls
        = [RemoteCall.commit ("sessions/456".data)]
    ∧ (print_activity completedCommitAct true false true).prompts = [commitPrompt]
    ∧ (print_activity completedCommitAct true false true).calls = []
    ∧ (print_activity emptyMsgCommitAct true false true).prompts = [commitPrompt] := by
  refine ⟨rfl, ?_, rfl, rfl, rfl, rfl⟩
  decide

/-- C8 counterexample: the fixed lines printed for planApproved and
sessionCompleted are Plan Approved and Session Completed (two-space
indented), not the sentences the claim states. -/
theorem claim_C8_counterexample :
    (print_activity planApprovedAct false false false).outLines
      = [sepLine, ("[------------ - UNKNOWN]".data), ("  Plan Approved".data)]
    ∧ ("The plan was approved.".data)
        ∉ (print_activity planApprovedAct false false false).outLines
    ∧ (print_activity completedNoInfoAct false false false).outLines
      = [sepLine, ("[------------ - UNKNOWN]".data), ("  Session Completed".data)]
    ∧ ("The session has been completed.".data)
        ∉ (print_activity completedNoInfoAct false false false).outLines := by
  refine ⟨rfl, ?_, rfl, ?_⟩
  · decide
  · decide

/-- C8 amended: rendering a planApproved activity prints exactly the fixed
title line Plan Approved after the separator and header, and rendering a
sessionCompleted activity prints the fixed title line Session Completed as
its third output line. -/
theorem claim_C8_fixed_lines (a : Activity) (c u p : Bool) :
    (a.message = none → a.planGenerated = none → a.progressUpdated = none →
      a.planApproved.isSome →
      (print_activity a c u p).outLines
        = [sepLine, headerLine a, ("  Plan Approved".data)])
    ∧ (a.message = none → a.planGenerated = none → a.progressUpdated = none →
      a.planApproved = none → a.sessionCompleted.isSome →
      (print_activity a c u p).outLines.take 3
        = [sepLine, headerLine a, ("  Session Completed".data)]) := by
  rcases a with ⟨nm, orig, ct, msg, pg, pu, arts, pa, sc⟩
  constructor
  · intro h1 h2 h3 h4
    cases msg with
    | some m => simp at h1
    | none =>
      cases pg with
      | some x => simp at h2
      | none =>
        cases pu with
        | some x => simp at h3
        | none =>
          cases pa with
          | none => simp at h4
          | some x => rfl
  · intro h1 h2 h3 h4 h5
    cases msg with
    | some m => simp at h1
    | none =>
      cases pg with
      | some x => simp at h2
      | none =>
        cases pu with
        | some x => simp at h3
        | none =>
          cases pa with
          | some x => simp at h4
          | none =>
            cases sc with
            | none => simp at h5
            | some sc1 =>
              rcases sc1 with ⟨ci⟩
              cases ci with
              | none => rfl
              | some ci1 =>
                rcases ci1 with ⟨cmsg⟩
                cases cmsg with
                | none => rfl
                | some cm =>
                  cases nm with
                  | none => rfl
                  | some n =>
                    cases c with
                    | false => rfl
                    | true => cases u <;> rfl

/-- Witness for C8 at the two bare activities. -/
theorem claim_C8_fixed_lines_witness :
    (print_activity planApprovedAct false false false).outLines
      = [sepLine, headerLine planApprovedAct, ("  Plan Approved".data)]
    ∧ (print_activity completedNoInfoAct false false false).outLines.take 3
      = [sepLine, headerLine completedNoInfoAct, ("  Session Completed".data)] :=
  ⟨(claim_C8_fixed_lines planApprovedAct false false false).1 rfl rfl rfl (by decide),
   (claim_C8_fixed_lines completedNoInfoAct false false false).2 rfl rfl rfl rfl (by decide)⟩

/-- C10: with no client supplied, print_activity never shows a
confirmation prompt and never performs a remote call, for every activity,
user answer, and network outcome. -/
theorem claim_C10_no_client_no_actions (a : Activity) (u p : Bool) :
    (print_activity a false u p).prompts = []
    ∧ (print_activity a false u p).calls = [] := by
  rcases a with ⟨nm, orig, ct, msg, pg, pu, arts, pa, sc⟩
  cases msg with
  | some m => exact ⟨rfl, rfl⟩
  | none =>
    cases pg with
    | some x => exact ⟨rfl, rfl⟩
    | none =>
      cases pu with
      | some x => exact ⟨rfl, rfl⟩
      | none =>
        cases pa with
        | some x => exact ⟨rfl, rfl⟩
        | none =>
          cases sc with
          | none => exact ⟨rfl, rfl⟩
          | some sc1 =>
            rcases sc1 with ⟨ci⟩
            cases ci with
            | none => exact ⟨rfl, rfl⟩
            | some ci1 =>
              rcases ci1 with ⟨cmsg⟩
              cases cmsg with
              | none => exact ⟨rfl, rfl⟩
              | some cm =>
                cases nm with
                | none => exact ⟨rfl, rfl⟩
                | some n => exact ⟨rfl, rfl⟩

/-- Lexicographic string order by character code, as Python compares the
sort keys. -/
def strLe : Str → Str → Bool
  | [], _ => true
  | _ :: _, [] => false
  | a :: as, b :: bs => if a < b then true else if a = b then strLe as bs else false

/-- Stable insertion for the model of sorted. -/
def insertSorted {α : Type} (le : α → α → Bool) (x : α) : List α → List α
  | [] => [x]
  | y :: ys => if le x y then x :: y :: ys else y :: insertSorted le x ys

/-- Stable sort (insertion sort) for the model of sorted. -/
def insSort {α : Type} (le : α → α → Bool) : List α → List α
  | [] => []
  | x :: xs => insertSorted le x (insSort le xs)

/-- Model of sorted(activities, key=lambda x: x subscript createTime):
Python extracts every key first, raising KeyError (none) when some
activity lacks createTime, then stable-sorts by the key strings. -/
def sortByCreateTime (acts : List Activity) : Option (List Activity) :=
  if acts.all (fun a => a.createTime.isSome) then
    some (insSort
      (fun a b => strLe (a.createTime.getD []) (b.createTime.getD [])) acts)
  else none

/-- Outcome of the inner for-loop of one poll iteration (jcat.py lines
343-346): the seen-set afterwards, the activities for which print_activity
was invoked (in order), and whether an exception aborted the iteration
(the name subscript at line 344 on a nameless activity, or a raise inside
print_activity, in which case the raising activity is not marked seen and
the remaining activities are not processed). -/
structure PollOutcome where
  seen : List Str
  renders : List Activity
  errored : Bool
deriving DecidableEq

/-- The body of the for-loop over the sorted activities (lines 343-346). -/
def processActivities (client userConfirms postOk : Bool) (seen : List Str) :
    List Activity → PollOutcome
  | [] => ⟨seen, [], false⟩
  | a :: rest =>
    match a.name with
    | none => ⟨seen, [], true⟩
    | some nm =>
      if nm ∈ seen then processActivities client userConfirms postOk seen rest
      else if (print_activity a client userConfirms postOk).err then
        ⟨seen, [a], true⟩
      else
        let res := processActivities client userConfirms postOk (seen ++ [nm]) rest
        ⟨res.seen, a :: res.renders, res.errored⟩

/-- One iteration of the while-loop of handle_session_follow is driven by
one event: the fetch returned a body (with or without an activities key),
a KeyboardInterrupt arrived, or the fetch raised some other exception
(carrying its message text). -/
inductive PollEvent where
  | fetched (data : Option (List Activity))
  | interrupt
  | fetchError (e : Str)
deriving DecidableEq

/-- Result of one iteration of the poll loop (lines 338-354): seen-set,
rendered activities, messages printed by the loop itself, the sleep length
chosen, and whether the loop exited (break). -/
structure StepResult where
  seen : List Str
  renders : List Activity
  msgs : List Str
  sleep : Nat
  exited : Bool
deriving DecidableEq

/-- Abstracted text of a KeyError raised while processing activities. -/
def keyErrorText : Str := ("KeyError".data)

/-- Embedding of one iteration of the poll loop of handle_session_follow
(jcat.py lines 338-354): a KeyboardInterrupt prints the closing message
and breaks; any other exception, whether from the fetch itself or from
processing the fetched page, prints an error message and sleeps 10;
a completed iteration sleeps 5. -/
def loopStep (client userConfirms postOk : Bool) (seen : List Str) :
    PollEvent → StepResult
  | PollEvent.interrupt =>
    ⟨seen, [], [("\nExiting follow mode.".data)], 0, true⟩
  | PollEvent.fetchError e =>
    ⟨seen, [], [("\nAn error occurred: ".data) ++ e], 10, false⟩
  | PollEvent.fetched none => ⟨seen, [], [], 5, false⟩
  | PollEvent.fetched (some acts) =>
    match sortByCreateTime acts with
    | none =>
      ⟨seen, [], [("\nAn error occurred: ".data) ++ keyErrorText], 10, false⟩
    | some sortedActs =>
      let res := processActivities client userConfirms postOk seen sortedActs
      if res.errored then
        ⟨res.seen, res.renders,
         [("\nAn error occurred: ".data) ++ keyErrorText], 10, false⟩
      else ⟨res.seen, res.renders, [], 5, false⟩

/-- Aggregate of a run of the poll loop over a finite event trace. -/
structure LoopResult where
  seen : List Str
  renders : List Activity
  exited : Bool
deriving DecidableEq

/-- The poll loop run over a finite trace of events, stopping early on
break. -/
def runLoop (client userConfirms postOk : Bool) (seen : List Str) :
    List PollEvent → LoopResult
  | [] => ⟨seen, [], false⟩
  | ev :: evs =>
    let s := loopStep client userConfirms postOk seen ev
    if s.exited then ⟨s.seen, s.renders, true⟩
    else
      let r := runLoop client userConfirms postOk s.seen evs
      ⟨r.seen, s.renders ++ r.renders, r.exited⟩

theorem print_activity_err_of_name (a : Activity) (c u p : Bool)
    (h : a.name.isSome) : (print_activity a c u p).err = false := by
  rcases a with ⟨nm, orig, ct, msg, pg, pu, arts, pa, sc⟩
  cases msg with
  | some m => rfl
  | none =>
    cases pg with
    | some x => rfl
    | none =>
      cases pu with
      | some x => rfl
      | none =>
        cases pa with
        | some x => rfl
        | none =>
          cases sc with
          | none => rfl
          | some sc1 =>
            rcases sc1 with ⟨ci⟩
            cases ci with
            | none => rfl
            | some ci1 =>
              rcases ci1 with ⟨cmsg⟩
              cases cmsg with
              | none => rfl
              | some cm =>
                cases nm with
                | none => simp at h
                | some n =>
                  cases c with
                  | false => rfl
                  | true => cases u <;> rfl

theorem processActivities_seen_mono (c u p : Bool) (acts : List Activity)
    (seen : List Str) (x : Str) (hx : x ∈ seen) :
    x ∈ (processActivities c u p seen acts).seen := by
  induction acts generalizing seen with
  | nil => exact hx
  | cons a rest ih =>
    simp only [processActivities]
    cases a.name with
    | none => exact hx
    | some nm =>
      by_cases hmem : nm ∈ seen
      · simp only [if_pos hmem]
        exact ih seen hx
      · simp only [if_neg hmem]
        by_cases herr : (print_activity a c u p).err = true
        · simp only [if_pos herr]
          exact hx
        · simp only [if_neg herr]
          exact ih (seen ++ [nm]) (List.mem_append_left _ hx)

theorem loopStep_seen_mono (c u p : Bool) (seen : List Str) (ev : PollEvent)
    (x : Str) (hx : x ∈ seen) : x ∈ (loopStep c u p seen ev).seen := by
  cases ev with
  | interrupt => exact hx
  | fetchError e => exact hx
  | fetched d =>
    cases d with
    | none => exact hx
    | some acts =>
      simp only [loopStep]
      cases sortByCreateTime acts with
      | none => exact hx
      | some sortedActs =>
        simp only []
        split
        · exact processActivities_seen_mono c u p sortedActs seen x hx
        · exact processActivities_seen_mono c u p sortedActs seen x hx

theorem runLoop_seen_mono (c u p : Bool) (evs : List PollEvent)
    (seen : List Str) (x : Str) (hx : x ∈ seen) :
    x ∈ (runLoop c u p seen evs).seen := by
  induction evs generalizing seen with
  | nil => exact hx
  | cons ev evs ih =>
    simp only [runLoop]
    split
    · exact loopStep_seen_mono c u p seen ev x hx
    · exact ih _ (loopStep_seen_mono c u p seen ev x hx)

theorem processActivities_renders_fresh (c u p : Bool) (acts : List Activity)
    (b : Activity) (nm : Str) (hn : b.name = some nm) :
    ∀ seen : List Str,
      b ∈ (processActivities c u p seen acts).renders → nm ∉ seen := by
  induction acts with
  | nil =>
    intro seen hb
    simp [processActivities] at hb
  | cons a rest ih =>
    intro seen hb
    simp only [processActivities] at hb
    cases ha : a.name with
    | none =>
      simp only [ha] at hb
      simp at hb
    | some nma =>
      simp only [ha] at hb
      by_cases hmem : nma ∈ seen
      · rw [if_pos hmem] at hb
        exact ih seen hb
      · rw [if_neg hmem] at hb
        by_cases herr : (print_activity a c u p).err = true
        · rw [if_pos herr] at hb
          simp only [List.mem_singleton] at hb
          subst hb
          have he := hn.symm.trans ha
          injection he with he
          subst he
          exact hmem
        · rw [if_neg herr] at hb
          simp only [List.mem_cons] at hb
          rcases hb with hb | hb
          · subst hb
            have he := hn.symm.trans ha
            injection he with he
            subst he
            exact hmem
          · intro hcon
            exact ih (seen ++ [nma]) hb (List.mem_append_left _ hcon)

/-- C2: within one follow invocation the seen-set only grows, a rendered
activity always has a name outside the seen-set at the start of its poll,
and two successive single-activity polls returning the same name render
exactly once across both polls. -/
theorem claim_C2_seen_set (c u p : Bool) :
    (∀ (seen : List Str) (evs : List PollEvent) (x : Str),
        x ∈ seen → x ∈ (runLoop c u p seen evs).seen)
    ∧ (∀ (seen : List Str) (acts : List Activity) (b : Activity) (nm : Str),
        b ∈ (processActivities c u p seen acts).renders →
          b.name = some nm → nm ∉ seen)
    ∧ (∀ (a b : Activity) (nm cta ctb : Str),
        a.name = some nm → b.name = some nm →
        a.createTime = some cta → b.createTime = some ctb →
        (runLoop c u p []
          [PollEvent.fetched (some [a]),
           PollEvent.fetched (some [b])]).renders.length = 1) := by
  refine ⟨?_, ?_, ?_⟩
  · intro seen evs x hx
    exact runLoop_seen_mono c u p evs seen x hx
  · intro seen acts b nm hb hn
    exact processActivities_renders_fresh c u p acts b nm hn seen hb
  · intro a b nm cta ctb hna hnb hcta hctb
    have herr : (print_activity a c u p).err = false :=
      print_activity_err_of_name a c u p (by simp [hna])
    have hsorta : sortByCreateTime [a] = some [a] := by
      simp [sortByCreateTime, hcta, insSort, insertSorted]
    have hsortb : sortByCreateTime [b] = some [b] := by
      simp [sortByCreateTime, hctb, insSort, insertSorted]
    have hproc1 : processActivities c u p [] [a] = ⟨[nm], [a], false⟩ := by
      simp [processActivities, hna, herr]
    have hproc2 : processActivities c u p [nm] [b] = ⟨[nm], [], false⟩ := by
      simp [processActivities, hnb]
    have hstep1 : loopStep c u p [] (PollEvent.fetched (some [a]))
        = ⟨[nm], [a], [], 5, false⟩ := by
      simp [loopStep, hsorta, hproc1]
    have hstep2 : loopStep c u p [nm] (PollEvent.fetched (some [b]))
        = ⟨[nm], [], [], 5, false⟩ := by
      simp [loopStep, hsortb, hproc2]
    simp [runLoop, hstep1, hstep2]

/-- A well-formed message activity used to exercise the poll loop. -/
def pollAct : Activity :=
  { name := some ("sessions/1/activities/7".data),
    originator := some ("agent".data),
    createTime := some ("2024-01-01T10:00:00.000Z".data),
    message := some ⟨some ("hi".data)⟩,
    planGenerated := none, progressUpdated := none, artifacts := none,
    planApproved := none, sessionCompleted := none }

/-- Witness for C2: a seeded name survives an empty run, and the two-poll
scenario at the concrete message activity renders exactly once. -/
theorem claim_C2_witness :
    ("k".data) ∈ (runLoop false false false [("k".data)] []).seen
    ∧ (runLoop false false false []
        [PollEvent.fetched (some [pollAct]),
         PollEvent.fetched (some [pollAct])]).renders.length = 1 :=
  ⟨(claim_C2_seen_set false false false).1 [("k".data)] [] ("k".data)
      (by decide),
   (claim_C2_seen_set false false false).2.2 pollAct pollAct
      ("sessions/1/activities/7".data) ("2024-01-01T10:00:00.000Z".data)
      ("2024-01-01T10:00:00.000Z".data) rfl rfl rfl rfl⟩

theorem loopStep_exited_iff (c u p : Bool) (seen : List Str) (ev : PollEvent) :
    (loopStep c u p seen ev).exited = true ↔ ev = PollEvent.interrupt := by
  cases ev with
  | interrupt => simp [loopStep]
  | fetchError e => simp [loopStep]
  | fetched d =>
    cases d with
    | none => simp [loopStep]
    | some acts =>
      simp only [loopStep]
      cases sortByCreateTime acts with
      | none => simp
      | some sortedActs =>
        simp only []
        split <;> simp

theorem runLoop_exited_iff (c u p : Bool) (evs : List PollEvent) :
    ∀ seen : List Str,
      (runLoop c u p seen evs).exited = true ↔ PollEvent.interrupt ∈ evs := by
  induction evs with
  | nil => intro seen; simp [runLoop]
  | cons ev evs ih =>
    intro seen
    simp only [runLoop]
    by_cases hex : (loopStep c u p seen ev).exited = true
    · rw [if_pos hex]
      simp only [List.mem_cons]
      have := (loopStep_exited_iff c u p seen ev).mp hex
      simp [this]
    · rw [if_neg hex]
      simp only [List.mem_cons]
      have hne : ev ≠ PollEvent.interrupt := by
        intro hcon
        exact hex ((loopStep_exited_iff c u p seen ev).mpr hcon)
      rw [ih ((loopStep c u p seen ev).seen)]
      constructor
      · intro h; exact Or.inr h
      · intro h
        rcases h with h | h
        · exact absurd h.symm hne
        · exact h

/-- C9: one poll iteration exits exactly on the cancellation signal (which
prints the closing message); a fetch error sleeps the long 10-unit backoff
and is reported; an iteration that processed a fetched page either sleeps
the short 5-unit interval or, when an error arose while processing, sleeps
10 units with a report; and a whole run exits exactly when the trace holds
a cancellation signal. -/
theorem claim_C9_loop_exit (c u p : Bool) :
    (∀ (seen : List Str) (ev : PollEvent),
        (loopStep c u p seen ev).exited = true ↔ ev = PollEvent.interrupt)
    ∧ (∀ seen : List Str,
        (loopStep c u p seen PollEvent.interrupt).msgs
          = [("\nExiting follow mode.".data)])
    ∧ (∀ (seen : List Str) (e : Str),
        (loopStep c u p seen (PollEvent.fetchError e)).sleep = 10
        ∧ (loopStep c u p seen (PollEvent.fetchError e)).msgs
            = [("\nAn error occurred: ".data) ++ e])
    ∧ (∀ (seen : List Str) (d : Option (List Activity)),
        (loopStep c u p seen (PollEvent.fetched d)).sleep = 5
        ∨ ((loopStep c u p seen (PollEvent.fetched d)).sleep = 10
            ∧ (loopStep c u p seen (PollEvent.fetched d)).msgs ≠ []))
    ∧ (∀ (seen : List Str) (evs : List PollEvent),
        (runLoop c u p seen evs).exited = true ↔ PollEvent.interrupt ∈ evs) := by
  refine ⟨loopStep_exited_iff c u p, fun seen => rfl, fun seen e => ⟨rfl, rfl⟩,
    ?_, fun seen evs => runLoop_exited_iff c u p evs seen⟩
  intro seen d
  cases d with
  | none => exact Or.inl rfl
  | some acts =>
    simp only [loopStep]
    cases sortByCreateTime acts with
    | none => simp
    | some sortedActs =>
      simp only []
      split
      · simp
      · simp

end Jcat

